import Mathlib

/-!
Shallow embedding of the storj peer-identity / mutual-TLS trust subsystem:
node-ID derivation (pkg/identity/identity.go), the proof-of-work key
generator (GenerateKey / GenerateKeys), CA selection (NewCA in
pkg/identity/certificate_authority.go), the peertls verification pipeline
(VerifyPeerFunc, VerifyCAWhitelist, VerifyUnrevokedChainFunc) and the
bandwidth-agreement receiver (Server.BandwidthAgreements).

Cryptographic primitives (SHA-256, ECDSA verification, X.509 parsing and
signing, protobuf marshalling), the store interfaces (bwagreement DB,
uplinkdb, RevocationDB) and the ambient context are modelled as explicit
oracle functions carried in environment structures; the control flow around
them is translated statement by statement from the Go source.  The
concurrent generator is modelled by its sequential interleaving semantics:
one worker stream of outcomes, the first completion deciding the result
(the Go code reads a single value from errchan).
-/

namespace Storj

/-- Byte strings ([]byte in Go) are modelled as lists of naturals. -/
abbrev Bytes := List Nat

/-- NodeID is a fixed 32-byte value (storj.NodeID is a [32]byte array). -/
abbrev NodeID := { l : Bytes // l.length = 32 }

/-- Error classes of the errs.Class values appearing in the modelled code:
bwagreement.Error, auth.ErrBadID, pb.ErrPayer, pb.ErrRenter, auth.ErrSerial,
auth.ErrExpired, auth.ErrSigLen, auth.ErrVerify, storj.ErrNodeID,
peertls.ErrUnsupportedKey, peertls.ErrVerifyPeerCert,
peertls.ErrVerifyCAWhitelist, peertls.ErrExtension, peertls.ErrRevokedCert,
identity.Error and peertls.ErrGenerate. -/
inductive ErrClass
  | bwagreementError
  | badID
  | payer
  | renter
  | serial
  | expired
  | sigLen
  | verifyErr
  | nodeID
  | unsupportedKey
  | verifyPeerCert
  | verifyCAWhitelist
  | extensionError
  | revokedCert
  | identityError
  | generate
  deriving DecidableEq

/-- Go error values as produced by the errs machinery: new c is Class.New
(a fresh error of class c), wrap c e is Class.Wrap applied to the inner
error e, and external t is an error coming from outside the modelled code
(a store or driver) whose Error() text is t. -/
inductive GoError
  | new (c : ErrClass)
  | wrap (c : ErrClass) (inner : GoError)
  | external (text : String)
  deriving DecidableEq

/-- Outermost error class of a Go error, when it has one. -/
def GoError.topClass : GoError → Option ErrClass
  | .new c => some c
  | .wrap c _ => some c
  | .external _ => none

/-- Go runtime panics reachable in the modelled code. -/
inductive GoPanic
  | nilPointerDeref
  deriving DecidableEq

/-- Helper for goContains: does the second list start the first one. -/
def hasPref : List Char → List Char → Bool
  | _, [] => true
  | [], _ :: _ => false
  | a :: as, b :: bs => (a == b) && hasPref as bs

/-- Helper for goContains: does sub occur contiguously inside hay. -/
def containsSubList : List Char → List Char → Bool
  | [], sub => sub.isEmpty
  | a :: as, sub => hasPref (a :: as) sub || containsSubList as sub

/-- Model of Go strings.Contains(s, sub). -/
def goContains (s sub : String) : Bool :=
  containsSubList s.toList sub.toList

/-- X.509 certificate abstraction: we keep the raw DER bytes (cert.Raw in
Go); every cryptographic property of a certificate is reached through the
oracle functions of the environments below. -/
structure Certificate where
  raw : Bytes
  deriving DecidableEq

/-- Modelled from the spec: the peertls chain layout constant LeafIndex
(its defining file is not part of the sources here); per the spec chain
layout, index 0 = leaf. -/
def LeafIndex : Nat := 0

/-- Modelled from the spec: the peertls chain layout constant CAIndex (its
defining file is not part of the sources here); per the spec chain layout,
index 1 = CA. -/
def CAIndex : Nat := 1

/-- An ECDSA public key: primeBitLen models k.Curve.Params().P.BitLen();
keyBytes is the abstract identity of the key material. -/
structure EcdsaPublicKey where
  primeBitLen : Nat
  keyBytes : Bytes
  deriving DecidableEq

/-- A crypto.PublicKey: either an ECDSA key or some other kind, carrying
the Go type name that the %T format verb would print. -/
inductive PublicKey
  | ecdsa (k : EcdsaPublicKey)
  | other (typeName : String)
  deriving DecidableEq

/-- Oracle environment for node-ID derivation: x509.MarshalPKIXPublicKey
and sha256.Sum256.  The digest type says that SHA-256 always yields 32
bytes, exactly as Go's [32]byte return type does. -/
structure IdentityEnv where
  marshalPKIX : EcdsaPublicKey → Except GoError Bytes
  sha256 : Bytes → NodeID

/-- NodeIDFromECDSAKey (pkg/identity/identity.go): id =
sha256(sha256(pkix(k))); a marshalling failure is wrapped in
storj.ErrNodeID. -/
def NodeIDFromECDSAKey (env : IdentityEnv) (k : EcdsaPublicKey) :
    Except GoError NodeID :=
  match env.marshalPKIX k with
  | .error e => .error (.wrap .nodeID e)
  | .ok kb => .ok (env.sha256 (env.sha256 kb).val)

/-- NodeIDFromKey (pkg/identity/identity.go): dispatches on the dynamic
key type; a non-ECDSA key yields storj.ErrNodeID.New with an
invalid-key-type message. -/
def NodeIDFromKey (env : IdentityEnv) (k : PublicKey) :
    Except GoError NodeID :=
  match k with
  | .ecdsa ek => NodeIDFromECDSAKey env ek
  | .other _ => .error (.new .nodeID)

/-- pb.AgreementsSummary status values. -/
inductive AgreementsSummaryStatus
  | OK
  | FAIL
  | REJECTED
  deriving DecidableEq

/-- pb.AgreementsSummary. -/
structure AgreementsSummary where
  Status : AgreementsSummaryStatus
  deriving DecidableEq

/-- pb.PayerBandwidthAllocation, restricted to the fields the modelled
code reads. -/
structure PayerBandwidthAllocation where
  SatelliteId : NodeID
  UplinkId : NodeID
  ExpirationUnixSec : Int
  Signature : Bytes
  Certs : List Bytes
  deriving DecidableEq

/-- pb.RenterBandwidthAllocation, restricted to the fields the modelled
code reads. -/
structure RenterBandwidthAllocation where
  PayerAllocation : PayerBandwidthAllocation
  StorageNodeId : NodeID
  Signature : Bytes
  Certs : List Bytes
  deriving DecidableEq

/-- identity.PeerIdentity. -/
structure PeerIdentity where
  RestChain : List Certificate
  CA : Certificate
  Leaf : Certificate
  ID : NodeID

/-- The gRPC context as the bandwidth-agreement receiver sees it:
peerIdentity is the outcome of identity.PeerIdentityFromContext, some pi on
success and none when no peer identity can be extracted (no gRPC peer,
non-TLS credentials, chain shorter than two certificates). -/
structure GrpcContext where
  peerIdentity : Option PeerIdentity

/-- The uplinkdb record returned by GetPublicKey. -/
structure UplinkInfo where
  PublicKey : Bytes

/-- bwagreement.Server, restricted to the fields the modelled code reads
(db and uplinkdb are oracles of BwEnv, the logger only logs). -/
structure Server where
  pkey : PublicKey
  NodeID : NodeID

/-- Oracle environment of a BandwidthAgreements call: the clock, the
uplinkdb and bwagreement stores, X.509 parsing, protobuf marshalling and
cryptopasta.Verify.  createAgreement returns some t when the store fails
with an error whose Error() text is t. -/
structure BwEnv where
  nowNanos : Int
  uplinkGetPublicKey : Bytes → Except GoError UplinkInfo
  parsePKIXPublicKey : Bytes → Except GoError PublicKey
  protoMarshalRBA : RenterBandwidthAllocation → Except GoError Bytes
  protoMarshalPBA : PayerBandwidthAllocation → Except GoError Bytes
  cryptopastaVerify : Bytes → Bytes → EcdsaPublicKey → Bool
  createAgreement : RenterBandwidthAllocation → Option String

/-- Server.verifySignature (bwagreement): resolves the renter key from
uplinkdb, checks both signature lengths against the curve prime bit length
over eight, and verifies the renter signature over the cleared rba and the
satellite signature over the cleared pba.  Returns none on success, mirror
of the Go nil error. -/
def verifySignature (env : BwEnv) (s : Server)
    (rba : RenterBandwidthAllocation) : Option GoError :=
  match env.uplinkGetPublicKey rba.PayerAllocation.UplinkId.val with
  | .error _ => some (.wrap .renter (.new .verifyErr))
  | .ok uplinkInfo =>
    match env.parsePKIXPublicKey uplinkInfo.PublicKey with
    | .error _ => some (.new .bwagreementError)
    | .ok pubkey =>
      match pubkey with
      | .other _ => some (.new .unsupportedKey)
      | .ecdsa k =>
        if rba.Signature.length < k.primeBitLen / 8 then
          some (.wrap .renter (.new .sigLen))
        else
          match env.protoMarshalRBA { rba with Signature := [], Certs := [] } with
          | .error _ => some (.new .bwagreementError)
          | .ok rbadBytes =>
            if env.cryptopastaVerify rbadBytes rba.Signature k = false then
              some (.wrap .renter (.new .verifyErr))
            else
              match s.pkey with
              | .other _ => some (.new .unsupportedKey)
              | .ecdsa k2 =>
                if rba.PayerAllocation.Signature.length < k2.primeBitLen / 8 then
                  some (.wrap .payer (.new .sigLen))
                else
                  match env.protoMarshalPBA
                      { rba.PayerAllocation with Signature := [], Certs := [] } with
                  | .error _ => some (.new .bwagreementError)
                  | .ok pbadBytes =>
                    if env.cryptopastaVerify pbadBytes
                        rba.PayerAllocation.Signature k2 = false then
                      some (.wrap .payer (.new .verifyErr))
                    else
                      none

/-- Server.BandwidthAgreements (bwagreement).  Mirrors the Go control flow:
the reply starts as REJECTED; when PeerIdentityFromContext fails, the Go
code evaluates pi.ID with pi == nil while formatting the BadID error
message, which is a nil-pointer dereference, so that branch is the panic
value; the remaining branches return the reply and error exactly as the
source does (note the expiration test is exp.Before(now), a strict
comparison in nanoseconds, and that the unique-constraint branch returns
with the reply still REJECTED while other store errors set FAIL). -/
def BandwidthAgreements (env : BwEnv) (s : Server) (ctx : GrpcContext)
    (rba : RenterBandwidthAllocation) :
    Except GoPanic (AgreementsSummary × Option GoError) :=
  match ctx.peerIdentity with
  | none => .error .nilPointerDeref
  | some pi =>
    if rba.StorageNodeId ≠ pi.ID then
      .ok (⟨.REJECTED⟩, some (.new .badID))
    else if rba.PayerAllocation.SatelliteId ≠ s.NodeID then
      .ok (⟨.REJECTED⟩, some (.new .payer))
    else if rba.PayerAllocation.ExpirationUnixSec * 1000000000 < env.nowNanos then
      .ok (⟨.REJECTED⟩, some (.wrap .payer (.new .expired)))
    else
      match verifySignature env s rba with
      | some e => .ok (⟨.REJECTED⟩, some e)
      | none =>
        match env.createAgreement rba with
        | some t =>
          if goContains t "UNIQUE constraint failed" ||
              goContains t "violates unique constraint" then
            .ok (⟨.REJECTED⟩, some (.wrap .payer (.wrap .serial (.external t))))
          else
            .ok (⟨.FAIL⟩, some (.wrap .payer (.external t)))
        | none => .ok (⟨.OK⟩, none)

/-- An *ecdsa.PrivateKey, abstract. -/
structure Key where
  keyId : Nat
  deriving DecidableEq

/-- Oracle environment of the proof-of-work generator: the ambient context
error as a function of the global iteration count, pkcrypto
GeneratePrivateKey as a stream of outcomes, NodeIDFromECDSAKey and
NodeID.Difficulty as oracles (Difficulty itself lives in pkg/storj, outside
these sources; the spec defines it as the trailing-zero-bit count of the
ID, and the generator only compares it). -/
structure GenEnv where
  ctxErr : Nat → Option GoError
  generatePrivateKey : Nat → Except GoError Key
  nodeIDFromKey : Key → Except GoError NodeID
  difficultyOf : NodeID → Except GoError Nat

/-- GenerateKey (identity keys source): loop checking ctx.Err at each
head, generating a key, deriving its id and difficulty, returning the
first candidate with difficulty at least minDifficulty; every error exit
is wrapped in storj.ErrNodeID.  The extra Nat is the global iteration
counter (one per loop head, so callers can continue the streams), the
first fuel argument bounds the unbounded Go loop, and none means the fuel
ran out before the loop exited. -/
def GenerateKey (env : GenEnv) (minDifficulty : Nat) :
    Nat → Nat → Option (Except GoError (Key × NodeID) × Nat)
  | 0, _ => none
  | fuel + 1, t =>
    match env.ctxErr t with
    | some e => some (.error (.wrap .nodeID e), t + 1)
    | none =>
      match env.generatePrivateKey t with
      | .error e => some (.error (.wrap .nodeID e), t + 1)
      | .ok k =>
        match env.nodeIDFromKey k with
        | .error e => some (.error (.wrap .nodeID e), t + 1)
        | .ok id =>
          match env.difficultyOf id with
          | .error e => some (.error (.wrap .nodeID e), t + 1)
          | .ok d =>
            if minDifficulty ≤ d then some (.ok (k, id), t + 1)
            else GenerateKey env minDifficulty fuel (t + 1)

/-- GenerateKeys (identity keys source), sequential interleaving
semantics: the Go function runs concurrent workers and returns the first
value sent on errchan; here one worker stream is followed, and the
callback closure state is threaded explicitly (found st k id returns the
new state, done and err).  Result some (st, none) is success (a callback
returned done), some (st, some e) is an error surfaced from GenerateKey or
the callback, none means the fuel ran out. -/
def GenerateKeys {σ : Type} (env : GenEnv) (minDifficulty : Nat)
    (found : σ → Key → NodeID → σ × Bool × Option GoError) :
    Nat → σ → Nat → Option (σ × Option GoError)
  | 0, _, _ => none
  | fuel + 1, st, t =>
    match GenerateKey env minDifficulty (fuel + 1) t with
    | none => none
    | some (.error e, _) => some (st, some e)
    | some (.ok (k, id), tNext) =>
      match found st k id with
      | (st2, _, some e) => some (st2, some e)
      | (st2, true, none) => some (st2, none)
      | (st2, false, none) => GenerateKeys env minDifficulty found fuel st2 tNext

/-- The sequence of candidates the worker stream produces: successive
successful GenerateKey results, in order. -/
def generatedCandidates (env : GenEnv) (minDifficulty : Nat) :
    Nat → Nat → List (Key × NodeID)
  | 0, _ => []
  | fuel + 1, t =>
    match GenerateKey env minDifficulty (fuel + 1) t with
    | some (.ok (k, id), tNext) =>
      (k, id) :: generatedCandidates env minDifficulty fuel tNext
    | _ => []

/-- minimumLoggableDifficulty (pkg/identity/certificate_authority.go). -/
def minimumLoggableDifficulty : Nat := 8

/-- NewCAOptions, restricted to the difficulty floor: Concurrency is
absorbed by the sequential interleaving model, Logger is nil here (its
effects are logging only) and the parent certificate and key only reach
the final certificate construction, which the makeCert oracle performs. -/
structure NewCAOptions where
  Difficulty : Nat

/-- The mutable closure state of the NewCA callback: the highscore counter
and the selectedKey / selectedID slot (none models the nil key). -/
structure CAState where
  highscore : Nat
  selected : Option (Key × NodeID)

/-- The callback NewCA passes to GenerateKeys: recompute the difficulty
(an error aborts), return done on a candidate meeting the configured
floor, installing it in the selected slot only when the slot is still
empty; a candidate below the floor raises the highscore to its difficulty
when larger (the compare-and-swap loop, sequentially) and continues. -/
def newCAFound (cfgDifficulty : Nat)
    (difficultyOf : NodeID → Except GoError Nat)
    (st : CAState) (k : Key) (id : NodeID) :
    CAState × Bool × Option GoError :=
  match difficultyOf id with
  | .error e => (st, false, some e)
  | .ok d =>
    if cfgDifficulty ≤ d then
      match st.selected with
      | none => ({ st with selected := some (k, id) }, true, none)
      | some _ => (st, true, none)
    else
      ({ st with highscore := max st.highscore d }, false, none)

/-- identity.FullCertificateAuthority. -/
structure FullCertificateAuthority where
  RestChain : List Certificate
  Cert : Certificate
  ID : NodeID
  Key : Key
  deriving DecidableEq

/-- The qualification test NewCA applies to a candidate: its recomputed
difficulty is defined and at least the configured floor. -/
def qualifies (difficultyOf : NodeID → Except GoError Nat)
    (cfgDifficulty : Nat) (c : Key × NodeID) : Bool :=
  match difficultyOf c.2 with
  | .ok d => decide (cfgDifficulty ≤ d)
  | .error _ => false

/-- NewCA (pkg/identity/certificate_authority.go): drives GenerateKeys
with minimumLoggableDifficulty and the callback above, then builds the CA
certificate from the selected key (the CATemplate and peertls.NewCert
steps are the makeCert oracle; with a nil selected key NewCert fails, the
generate-error branch).  RestChain is [parentCert] when a parent is
given. -/
def NewCA (env : GenEnv) (makeCert : Key → Except GoError Certificate)
    (opts : NewCAOptions) (parentCert : Option Certificate) (fuel : Nat) :
    Option (Except GoError FullCertificateAuthority) :=
  match GenerateKeys env minimumLoggableDifficulty
      (newCAFound opts.Difficulty env.difficultyOf) fuel ⟨0, none⟩ 0 with
  | none => none
  | some (_, some e) => some (.error e)
  | some (st, none) =>
    match st.selected with
    | none => some (.error (.new .generate))
    | some (k, id) =>
      match makeCert k with
      | .error e => some (.error e)
      | .ok c =>
        some (.ok { RestChain := match parentCert with
                                 | some p => [p]
                                 | none => []
                  , Cert := c
                  , ID := id
                  , Key := k })

/-- peertls.PeerCertVerificationFunc: raw chain and parsed chains to an
optional error (none = pass). -/
abbrev PeerCertVerificationFunc :=
  List Bytes → List (List Certificate) → Option GoError

/-- The loop body of VerifyPeerFunc: call each non-nil downstream verifier
in order on the raw chain and the freshly parsed chain in slot 0, wrapping
the first error in ErrVerifyPeerCert. -/
def verifyPeerLoop (chain : List Bytes) (c : List Certificate) :
    List (Option PeerCertVerificationFunc) → Option GoError
  | [] => none
  | none :: rest => verifyPeerLoop chain c rest
  | some n :: rest =>
    match n chain [c] with
    | some e => some (.wrap .verifyPeerCert e)
    | none => verifyPeerLoop chain c rest

/-- peertls.VerifyPeerFunc: parse the raw DER chain (the certsFromDER
oracle models pkcrypto.CertsFromDER), wrapping a parse failure in
ErrVerifyPeerCert, then run the downstream verifiers; the incoming parsed
chains argument is ignored, as in the source. -/
def VerifyPeerFunc
    (certsFromDER : List Bytes → Except GoError (List Certificate))
    (next : List (Option PeerCertVerificationFunc)) :
    PeerCertVerificationFunc :=
  fun chain _ =>
    match certsFromDER chain with
    | .error e => some (.wrap .verifyPeerCert e)
    | .ok c => verifyPeerLoop chain c next

/-- The CA certificate of the first parsed chain, chains[0][CAIndex]. -/
def chainCA (parsedChains : List (List Certificate)) : Certificate :=
  (parsedChains.getD 0 []).getD CAIndex ⟨[]⟩

/-- The leaf certificate of the first parsed chain, chains[0][LeafIndex]. -/
def chainLeaf (parsedChains : List (List Certificate)) : Certificate :=
  (parsedChains.getD 0 []).getD LeafIndex ⟨[]⟩

/-- The loop body of the VerifyCAWhitelist verifier: try every whitelist
CA against the chain CA (the verifyCertSignature oracle models the
pkcrypto signature check, parent first), passing on the first success and
otherwise failing with ErrVerifyCAWhitelist. -/
def caWhitelistLoop
    (verifyCertSignature : Certificate → Certificate → Option GoError)
    (target : Certificate) : List Certificate → Option GoError
  | [] => some (.new .verifyCAWhitelist)
  | ca :: rest =>
    match verifyCertSignature ca target with
    | none => none
    | some _ => caWhitelistLoop verifyCertSignature target rest

/-- peertls.VerifyCAWhitelist: a nil whitelist yields a nil verifier; a
non-nil whitelist yields the verifier built from the loop above over
chains[0][CAIndex]. -/
def VerifyCAWhitelist
    (verifyCertSignature : Certificate → Certificate → Option GoError)
    (cas : Option (List Certificate)) : Option PeerCertVerificationFunc :=
  match cas with
  | none => none
  | some cas =>
    some (fun _ parsedChains =>
      caWhitelistLoop verifyCertSignature (chainCA parsedChains) cas)

/-- A revocation record: cert_hash and the CA signature over it. -/
structure RevocationRecord where
  certHash : Bytes
  signature : Bytes
  deriving DecidableEq

/-- Oracle environment of the revocation verifier: revGet models
RevocationDB.Get on the first parsed chain (its implementation is outside
these sources; per the spec it returns the most recent record for the
CA of the chain, or none), and recVerify models Record.Verify against the CA
certificate. -/
structure RevocationEnv where
  revGet : List Certificate → Except GoError (Option RevocationRecord)
  recVerify : RevocationRecord → Certificate → Option GoError

/-- peertls.VerifyUnrevokedChainFunc: fetch the last revocation record for
the chain (a store failure is wrapped in ErrExtension); with no record the
chain passes; with a record whose cert_hash equals the raw DER of the CA
or of the leaf, the record signature is checked against the CA, an invalid
signature failing with ErrExtension and a valid one with ErrRevokedCert;
with a record matching neither, the chain passes. -/
def VerifyUnrevokedChainFunc (env : RevocationEnv) :
    PeerCertVerificationFunc :=
  fun _ chains =>
    match env.revGet (chains.getD 0 []) with
    | .error e => some (.wrap .extensionError e)
    | .ok none => none
    | .ok (some lastRev) =>
      if lastRev.certHash = (chainCA chains).raw ∨
          lastRev.certHash = (chainLeaf chains).raw then
        match env.recVerify lastRev (chainCA chains) with
        | .some e => some (.wrap .extensionError e)
        | .none => some (.new .revokedCert)
      else none

/-- The all-zero 32-byte node ID, a concrete test value. -/
def nid0 : NodeID := ⟨List.replicate 32 0, by simp⟩

/-- A 32-byte node ID beginning with a one, a concrete test value. -/
def nid1 : NodeID := ⟨1 :: List.replicate 31 0, by simp⟩

/-- Concrete identity oracle environment for the node-ID theorems. -/
def idEnvT : IdentityEnv := ⟨fun _ => .ok [], fun _ => nid0⟩

/-- Concrete ECDSA key whose prime bit length is zero, so both signature
length checks hold trivially. -/
def ecdsaT : EcdsaPublicKey := ⟨0, []⟩

/-- Concrete payer allocation expiring at unix second zero. -/
def pbaT : PayerBandwidthAllocation := ⟨nid1, nid0, 0, [], []⟩

/-- Concrete renter allocation for the storage node nid0. -/
def rbaT : RenterBandwidthAllocation := ⟨pbaT, nid0, [], []⟩

/-- Concrete peer identity with node ID nid0. -/
def piT : PeerIdentity := ⟨[], ⟨[]⟩, ⟨[]⟩, nid0⟩

/-- Concrete context whose peer identity extraction succeeds with piT. -/
def ctxT : GrpcContext := ⟨some piT⟩

/-- Concrete satellite server with node ID nid1. -/
def serverT : Server := ⟨.ecdsa ecdsaT, nid1⟩

/-- Concrete happy-path environment: every oracle succeeds, every
signature verifies, the store write succeeds, and the clock reads zero. -/
def bwEnvOk : BwEnv :=
  ⟨0, fun _ => .ok ⟨[]⟩, fun _ => .ok (.ecdsa ecdsaT), fun _ => .ok [],
   fun _ => .ok [], fun _ _ _ => true, fun _ => none⟩

/-- Like bwEnvOk but the clock reads one nanosecond, so the zero-second
expiration lies strictly in the past. -/
def bwEnvExpired : BwEnv :=
  ⟨1, fun _ => .ok ⟨[]⟩, fun _ => .ok (.ecdsa ecdsaT), fun _ => .ok [],
   fun _ => .ok [], fun _ _ _ => true, fun _ => none⟩

/-- A store error text carrying the sqlite unique-constraint marker. -/
def uniqueText : String := "db: UNIQUE constraint failed: agreement.serial"

/-- Like bwEnvOk but the store write fails with a unique-constraint
violation. -/
def bwEnvUnique : BwEnv :=
  ⟨0, fun _ => .ok ⟨[]⟩, fun _ => .ok (.ecdsa ecdsaT), fun _ => .ok [],
   fun _ => .ok [], fun _ _ _ => true, fun _ => some uniqueText⟩

/-- Like bwEnvOk but the store write fails with an unrelated error. -/
def bwEnvFail : BwEnv :=
  ⟨0, fun _ => .ok ⟨[]⟩, fun _ => .ok (.ecdsa ecdsaT), fun _ => .ok [],
   fun _ => .ok [], fun _ _ _ => true, fun _ => some "disk full"⟩

/-- Concrete generator environment: never cancelled, key generation always
succeeds, every ID has difficulty thirty. -/
def genEnvT : GenEnv :=
  ⟨fun _ => none, fun t => .ok ⟨t⟩, fun _ => .ok nid0, fun _ => .ok 30⟩

/-- Concrete generator environment cancelled from the start. -/
def genEnvCancel : GenEnv :=
  ⟨fun _ => some (.external "context canceled"), fun t => .ok ⟨t⟩,
   fun _ => .ok nid0, fun _ => .ok 0⟩

/-- Concrete generator environment whose key generation fails at once. -/
def genEnvRng : GenEnv :=
  ⟨fun _ => none, fun _ => .error (.external "rng failure"),
   fun _ => .ok nid0, fun _ => .ok 30⟩

/-- Concrete certificate constructor oracle. -/
def makeCertT : Key → Except GoError Certificate := fun _ => .ok ⟨[7]⟩

/-- The certificate authority NewCA produces from genEnvT with difficulty
floor thirty: the first candidate wins. -/
def caT : FullCertificateAuthority := ⟨[], ⟨[7]⟩, nid0, ⟨0⟩⟩

/-- Concrete certificates for the pipeline fixtures. -/
def certA : Certificate := ⟨[1]⟩

/-- A second concrete certificate. -/
def certB : Certificate := ⟨[2]⟩

/-- A concrete parsed chain: leaf certB at index zero, CA certA at index
one. -/
def chainT : List Certificate := [certB, certA]

/-- A revocation record whose cert hash equals the raw bytes of certA. -/
def recA : RevocationRecord := ⟨[1], [9]⟩

/-- A revocation record matching neither certA nor certB. -/
def recX : RevocationRecord := ⟨[5], [9]⟩

/-- Revocation environment holding no record. -/
def revEnvNone : RevocationEnv := ⟨fun _ => .ok none, fun _ _ => none⟩

/-- Revocation environment holding recA with a valid signature. -/
def revEnvHitOk : RevocationEnv := ⟨fun _ => .ok (some recA), fun _ _ => none⟩

/-- Revocation environment holding recA with an invalid signature. -/
def revEnvHitBad : RevocationEnv :=
  ⟨fun _ => .ok (some recA), fun _ _ => some (.external "bad sig")⟩

/-- Revocation environment holding the unrelated record recX, with the
record verification oracle a parameter. -/
def revEnvMiss (v : RevocationRecord → Certificate → Option GoError) :
    RevocationEnv := ⟨fun _ => .ok (some recX), v⟩

/-- A whitelist signature oracle accepting exactly certA as signer. -/
def vcsT : Certificate → Certificate → Option GoError :=
  fun ca _ => if ca = certA then none else some (.external "no match")

/-- Concrete chain parser for the pipeline fixtures. -/
def cfdT : List Bytes → Except GoError (List Certificate) := fun _ => .ok chainT

/-- A downstream verifier that always passes. -/
def vPass : PeerCertVerificationFunc := fun _ _ => none

/-- A downstream verifier that always fails. -/
def vFail : PeerCertVerificationFunc :=
  fun _ _ => some (.external "verifier failed")

/-- C1: the claim says a call on a context with no extractable peer
identity returns a REJECTED reply together with a BadID error; instead,
for every request message, server and environment, the code evaluates
pi.ID with pi equal to nil while formatting that BadID error message and
panics with a nil-pointer dereference. -/
theorem bandwidthAgreements_missing_identity_panics
    (env : BwEnv) (s : Server) (rba : RenterBandwidthAllocation) :
    BandwidthAgreements env s ⟨none⟩ rba = .error .nilPointerDeref := rfl

/-- C5 counterexample: on a non-ECDSA public key, NodeIDFromKey returns an
error of the storj ErrNodeID class, which is not the UnsupportedKey class
the claim names. -/
theorem nodeIDFromKey_error_class_cex :
    NodeIDFromKey idEnvT (.other "*rsa.PublicKey") = .error (.new .nodeID) ∧
    (GoError.new .nodeID).topClass ≠ some ErrClass.unsupportedKey :=
  ⟨rfl, by decide⟩

/-- C5 amended: for every ECDSA key whose PKIX marshalling succeeds,
NodeIDFromKey returns the 32-byte value sha256(sha256(pkix(k))); for every
non-ECDSA key it returns an error of the ErrNodeID class (an
invalid-key-type message), not one of the UnsupportedKey class. -/
theorem nodeIDFromKey_spec :
    (∀ (env : IdentityEnv) (k : EcdsaPublicKey) (kb : Bytes),
      env.marshalPKIX k = .ok kb →
        NodeIDFromKey env (.ecdsa k) = .ok (env.sha256 (env.sha256 kb).val) ∧
        (env.sha256 (env.sha256 kb).val).val.length = 32) ∧
    (∀ (env : IdentityEnv) (t : String),
      NodeIDFromKey env (.other t) = .error (.new .nodeID) ∧
      (GoError.new .nodeID).topClass ≠ some ErrClass.unsupportedKey) := by
  refine ⟨fun env k kb h => ⟨?_, (env.sha256 (env.sha256 kb).val).property⟩,
    fun env t => ⟨rfl, by decide⟩⟩
  simp [NodeIDFromKey, NodeIDFromECDSAKey, h]

/-- C5 witness: the amended statement evaluated on the concrete identity
environment. -/
theorem nodeIDFromKey_spec_witness :
    (NodeIDFromKey idEnvT (.ecdsa ecdsaT) =
        .ok (idEnvT.sha256 (idEnvT.sha256 []).val) ∧
      (idEnvT.sha256 (idEnvT.sha256 []).val).val.length = 32) ∧
    (NodeIDFromKey idEnvT (.other "int") = .error (.new .nodeID) ∧
      (GoError.new .nodeID).topClass ≠ some ErrClass.unsupportedKey) :=
  ⟨nodeIDFromKey_spec.1 idEnvT ecdsaT [] rfl, nodeIDFromKey_spec.2 idEnvT "int"⟩

/-- The whitelist loop passes exactly when some whitelist CA verifies the
target certificate, and otherwise produces ErrVerifyCAWhitelist. -/
theorem caWhitelistLoop_eq
    (vcs : Certificate → Certificate → Option GoError)
    (target : Certificate) (cas : List Certificate) :
    caWhitelistLoop vcs target cas =
      (if cas.any (fun ca => (vcs ca target).isNone) then none
       else some (.new .verifyCAWhitelist)) := by
  induction cas with
  | nil => simp [caWhitelistLoop]
  | cons ca rest ih =>
    cases h : vcs ca target with
    | none => simp [caWhitelistLoop, h]
    | some e => simp [caWhitelistLoop, h, ih]

/-- C3 counterexample: the verifier built from the empty non-nil whitelist
exists and rejects a chain, rather than being a no-op that admits every
chain as the claim states. -/
theorem verifyCAWhitelist_empty_rejects_cex :
    (VerifyCAWhitelist (fun _ _ => none) (some [])).map
        (fun f => f [] [[certB, certA]]) =
      some (some (.new .verifyCAWhitelist)) := rfl

/-- C3 amended: a nil whitelist yields a nil verifier, skipped by the
composition and hence a no-op; every non-nil whitelist, the empty one
included, yields a verifier that passes exactly when some whitelist CA
verifies the signature on chain[CAIndex] and otherwise fails with the
VerifyCAWhitelist kind, so an empty non-nil whitelist rejects every
chain. -/
theorem verifyCAWhitelist_spec :
    (∀ vcs, VerifyCAWhitelist vcs none = none) ∧
    (∀ (vcs : Certificate → Certificate → Option GoError)
        (cas : List Certificate) (raw : List Bytes)
        (parsedChains : List (List Certificate)), ∃ f,
      VerifyCAWhitelist vcs (some cas) = some f ∧
      f raw parsedChains =
        (if cas.any (fun ca => (vcs ca (chainCA parsedChains)).isNone)
         then none else some (.new .verifyCAWhitelist))) := by
  refine ⟨fun vcs => rfl, fun vcs cas raw parsedChains => ⟨_, rfl, ?_⟩⟩
  exact caWhitelistLoop_eq vcs (chainCA parsedChains) cas

/-- C3 witness: the amended statement evaluated on a concrete whitelist
and chain. -/
theorem verifyCAWhitelist_spec_witness :
    VerifyCAWhitelist vcsT none = none ∧
    ∃ f, VerifyCAWhitelist vcsT (some [certA]) = some f ∧
      f [] [[certB, certA]] =
        (if [certA].any (fun ca => (vcsT ca (chainCA [[certB, certA]])).isNone)
         then none else some (.new .verifyCAWhitelist)) :=
  ⟨verifyCAWhitelist_spec.1 vcsT,
   verifyCAWhitelist_spec.2 vcsT [certA] [] [[certB, certA]]⟩

/-- C6: with no stored record the revocation verifier passes; with a
stored record whose cert hash equals the raw DER of the chain CA or of
the leaf, the verifier fails with ErrRevokedCert when the record signature
verifies against the CA and with the ErrExtension kind when it does
not. -/
theorem verifyUnrevokedChain_record_dispatch
    (env : RevocationEnv) (raw : List Bytes)
    (chains : List (List Certificate)) :
    (env.revGet (chains.getD 0 []) = .ok none →
      VerifyUnrevokedChainFunc env raw chains = none) ∧
    (∀ r, env.revGet (chains.getD 0 []) = .ok (some r) →
      (r.certHash = (chainCA chains).raw ∨
        r.certHash = (chainLeaf chains).raw) →
      (env.recVerify r (chainCA chains) = none →
        VerifyUnrevokedChainFunc env raw chains = some (.new .revokedCert)) ∧
      (∀ e, env.recVerify r (chainCA chains) = some e →
        VerifyUnrevokedChainFunc env raw chains =
          some (.wrap .extensionError e))) := by
  constructor
  · intro hget
    simp only [VerifyUnrevokedChainFunc, hget]
  · intro r hget hhash
    constructor
    · intro hver
      simp only [VerifyUnrevokedChainFunc, hget]
      rw [if_pos hhash, hver]
    · intro e hver
      simp only [VerifyUnrevokedChainFunc, hget]
      rw [if_pos hhash, hver]

/-- C6 witness: the three record dispatch outcomes on concrete
environments and a concrete chain. -/
theorem verifyUnrevokedChain_record_dispatch_witness :
    VerifyUnrevokedChainFunc revEnvNone [] [chainT] = none ∧
    VerifyUnrevokedChainFunc revEnvHitOk [] [chainT] =
      some (.new .revokedCert) ∧
    VerifyUnrevokedChainFunc revEnvHitBad [] [chainT] =
      some (.wrap .extensionError (.external "bad sig")) :=
  ⟨(verifyUnrevokedChain_record_dispatch revEnvNone [] [chainT]).1 rfl,
   ((verifyUnrevokedChain_record_dispatch revEnvHitOk [] [chainT]).2
      recA rfl (Or.inl rfl)).1 rfl,
   ((verifyUnrevokedChain_record_dispatch revEnvHitBad [] [chainT]).2
      recA rfl (Or.inl rfl)).2 (.external "bad sig") rfl⟩

/-- C10: a stored record whose cert hash matches neither the chain CA nor
the leaf lets the chain pass, and the outcome is the same for every record
verification oracle, so the record signature is never consulted. -/
theorem verifyUnrevokedChain_hash_mismatch_passes
    (env : RevocationEnv) (raw : List Bytes)
    (chains : List (List Certificate)) (r : RevocationRecord)
    (hget : env.revGet (chains.getD 0 []) = .ok (some r))
    (hca : r.certHash ≠ (chainCA chains).raw)
    (hleaf : r.certHash ≠ (chainLeaf chains).raw) :
    VerifyUnrevokedChainFunc env raw chains = none ∧
    ∀ v : RevocationRecord → Certificate → Option GoError,
      VerifyUnrevokedChainFunc ⟨env.revGet, v⟩ raw chains = none := by
  have hcond : ¬(r.certHash = (chainCA chains).raw ∨
      r.certHash = (chainLeaf chains).raw) := by
    rintro (h | h)
    · exact hca h
    · exact hleaf h
  constructor
  · simp only [VerifyUnrevokedChainFunc, hget, if_neg hcond]
  · intro v
    simp only [VerifyUnrevokedChainFunc, hget, if_neg hcond]

/-- C10 witness: the mismatching record recX admits the concrete chain
under two record verification oracles that disagree. -/
theorem verifyUnrevokedChain_hash_mismatch_passes_witness :
    VerifyUnrevokedChainFunc (revEnvMiss (fun _ _ => none)) [] [chainT] =
      none ∧
    VerifyUnrevokedChainFunc
        ⟨(revEnvMiss (fun _ _ => none)).revGet,
         fun _ _ => some (.external "x")⟩ [] [chainT] = none :=
  have h := verifyUnrevokedChain_hash_mismatch_passes
    (revEnvMiss (fun _ _ => none)) [] [chainT] recX rfl
    (by decide) (by decide)
  ⟨h.1, h.2 _⟩

/-- The downstream loop of VerifyPeerFunc equals the first error produced
by the non-nil verifiers in declared order, wrapped in ErrVerifyPeerCert,
with each verifier receiving the parsed chain in slot zero. -/
theorem verifyPeerLoop_eq (chain : List Bytes) (c : List Certificate)
    (next : List (Option PeerCertVerificationFunc)) :
    verifyPeerLoop chain c next =
      ((next.filterMap id).findSome? (fun v => v chain [c])).map
        (fun e => .wrap .verifyPeerCert e) := by
  induction next with
  | nil => rfl
  | cons hd rest ih =>
    cases hd with
    | none => simpa [verifyPeerLoop] using ih
    | some n =>
      cases h : n chain [c] with
      | none => simp [verifyPeerLoop, List.findSome?_cons, h, ih]
      | some e => simp [verifyPeerLoop, List.findSome?_cons, h]

/-- C8: the composed verifier wraps a chain parse failure in
ErrVerifyPeerCert; on a successful parse it equals the first error of the
non-nil downstream verifiers in declared order, each receiving the raw
chain and the freshly parsed chain as the only parsed chain, wrapped in
ErrVerifyPeerCert (skipped nil verifiers and untouched later verifiers are
what the find-first formulation expresses); and it succeeds exactly when
the parse and every non-nil verifier succeed. -/
theorem verifyPeerFunc_spec :
    (∀ (cfd : List Bytes → Except GoError (List Certificate))
        (next : List (Option PeerCertVerificationFunc))
        (chain : List Bytes) (pcs : List (List Certificate)) (e : GoError),
      cfd chain = .error e →
      VerifyPeerFunc cfd next chain pcs = some (.wrap .verifyPeerCert e)) ∧
    (∀ (cfd : List Bytes → Except GoError (List Certificate))
        (next : List (Option PeerCertVerificationFunc))
        (chain : List Bytes) (pcs : List (List Certificate))
        (c : List Certificate),
      cfd chain = .ok c →
      VerifyPeerFunc cfd next chain pcs =
        ((next.filterMap id).findSome? (fun v => v chain [c])).map
          (fun e => .wrap .verifyPeerCert e)) ∧
    (∀ (cfd : List Bytes → Except GoError (List Certificate))
        (next : List (Option PeerCertVerificationFunc))
        (chain : List Bytes) (pcs : List (List Certificate))
        (c : List Certificate),
      cfd chain = .ok c →
      (VerifyPeerFunc cfd next chain pcs = none ↔
        ∀ v ∈ next.filterMap id, v chain [c] = none)) := by
  refine ⟨fun cfd next chain pcs e h => ?_,
    fun cfd next chain pcs c h => ?_, fun cfd next chain pcs c h => ?_⟩
  · simp only [VerifyPeerFunc, h]
  · simp only [VerifyPeerFunc, h]
    exact verifyPeerLoop_eq chain c next
  · have h1 : VerifyPeerFunc cfd next chain pcs =
        ((next.filterMap id).findSome? (fun v => v chain [c])).map
          (fun e => .wrap .verifyPeerCert e) := by
      simp only [VerifyPeerFunc, h]
      exact verifyPeerLoop_eq chain c next
    rw [h1, Option.map_eq_none']
    exact List.findSome?_eq_none_iff

/-- C8 witness: the three composition facts evaluated on concrete parsers
and verifiers. -/
theorem verifyPeerFunc_spec_witness :
    VerifyPeerFunc (fun _ => .error (.external "parse error")) [] [] [] =
      some (.wrap .verifyPeerCert (.external "parse error")) ∧
    VerifyPeerFunc cfdT [none, some vPass, some vFail] [] [] =
      (([none, some vPass, some vFail].filterMap id).findSome?
        (fun v => v [] [chainT])).map (fun e => .wrap .verifyPeerCert e) ∧
    (VerifyPeerFunc cfdT [none, some vPass] [] [] = none ↔
      ∀ v ∈ [none, some vPass].filterMap id, v [] [chainT] = none) :=
  ⟨verifyPeerFunc_spec.1 (fun _ => .error (.external "parse error"))
      [] [] [] (.external "parse error") rfl,
   verifyPeerFunc_spec.2.1 cfdT [none, some vPass, some vFail] [] [] chainT rfl,
   verifyPeerFunc_spec.2.2 cfdT [none, some vPass] [] [] chainT rfl⟩

/-- Every error verifySignature produces differs from ErrPayer wrapping
ErrExpired, whatever the oracles return. -/
theorem verifySignature_ne_expired (env : BwEnv) (s : Server)
    (rba : RenterBandwidthAllocation) (e : GoError)
    (h : verifySignature env s rba = some e) :
    e ≠ .wrap .payer (.new .expired) := by
  unfold verifySignature at h
  repeat' split at h
  all_goals first
  | (injection h with h2; subst h2; decide)
  | exact Option.noConfusion h

/-- C2 counterexample: a request whose payer allocation expires exactly at
the current instant (both zero) passes every check and is answered OK with
no error, not rejected with ErrPayer wrapping Expired as the claim
states. -/
theorem bandwidthAgreements_expiration_equal_admitted_cex :
    rbaT.PayerAllocation.ExpirationUnixSec * 1000000000 = bwEnvOk.nowNanos ∧
    BandwidthAgreements bwEnvOk serverT ctxT rbaT = .ok (⟨.OK⟩, none) :=
  ⟨rfl, rfl⟩

/-- C2 amended: the expiration check is strict — an allocation expiring
strictly before now is rejected with ErrPayer wrapping Expired, while one
expiring exactly at now or later passes the expiration check and the call
can never return the Expired rejection. -/
theorem bandwidthAgreements_expiration_strict
    (env : BwEnv) (s : Server) (ctx : GrpcContext)
    (rba : RenterBandwidthAllocation) (pi : PeerIdentity)
    (hpi : ctx.peerIdentity = some pi)
    (hid : rba.StorageNodeId = pi.ID)
    (hsat : rba.PayerAllocation.SatelliteId = s.NodeID) :
    (rba.PayerAllocation.ExpirationUnixSec * 1000000000 < env.nowNanos →
      BandwidthAgreements env s ctx rba =
        .ok (⟨.REJECTED⟩, some (.wrap .payer (.new .expired)))) ∧
    (env.nowNanos ≤ rba.PayerAllocation.ExpirationUnixSec * 1000000000 →
      ∀ r oe, BandwidthAgreements env s ctx rba = .ok (r, oe) →
        oe ≠ some (.wrap .payer (.new .expired))) := by
  constructor
  · intro hlt
    simp only [BandwidthAgreements, hpi]
    rw [if_neg (by simp [hid]), if_neg (by simp [hsat]), if_pos hlt]
  · intro hge r oe hres
    simp only [BandwidthAgreements, hpi] at hres
    rw [if_neg (by simp [hid]), if_neg (by simp [hsat]),
      if_neg (by omega)] at hres
    cases hsig : verifySignature env s rba with
    | some e =>
      simp only [hsig, Except.ok.injEq, Prod.mk.injEq] at hres
      rw [← hres.2]
      intro hcontra
      injection hcontra with hc2
      exact verifySignature_ne_expired env s rba e hsig hc2
    | none =>
      simp only [hsig] at hres
      cases hca : env.createAgreement rba with
      | some t =>
        simp only [hca] at hres
        split at hres <;>
          simp only [Except.ok.injEq, Prod.mk.injEq] at hres <;>
          rw [← hres.2] <;>
          intro hcontra <;>
          injection hcontra with hc2 <;>
          injection hc2 with hc3 hc4 <;>
          exact GoError.noConfusion hc4
      | none =>
        simp only [hca, Except.ok.injEq, Prod.mk.injEq] at hres
        rw [← hres.2]
        exact Option.noConfusion

/-- C2 witness: the strict rejection on a concrete expired request, and
the amended no-Expired conclusion on the concrete boundary request. -/
theorem bandwidthAgreements_expiration_strict_witness :
    BandwidthAgreements bwEnvExpired serverT ctxT rbaT =
      .ok (⟨.REJECTED⟩, some (.wrap .payer (.new .expired))) ∧
    (none : Option GoError) ≠ some (.wrap .payer (.new .expired)) :=
  ⟨(bandwidthAgreements_expiration_strict bwEnvExpired serverT ctxT rbaT piT
      rfl rfl rfl).1 (by decide),
   (bandwidthAgreements_expiration_strict bwEnvOk serverT ctxT rbaT piT
      rfl rfl rfl).2 (by decide) ⟨.OK⟩ none rfl⟩

/-- C7: once the identity, satellite, expiration and signature checks
pass, a store error whose text contains either unique-constraint marker
yields ErrPayer wrapping ErrSerial wrapping the store error (the reply
still REJECTED), any other store error yields a FAIL reply with ErrPayer
wrapping it, and a successful write yields an OK reply with no error. -/
theorem bandwidthAgreements_store_error_mapping
    (env : BwEnv) (s : Server) (ctx : GrpcContext)
    (rba : RenterBandwidthAllocation) (pi : PeerIdentity)
    (hpi : ctx.peerIdentity = some pi)
    (hid : rba.StorageNodeId = pi.ID)
    (hsat : rba.PayerAllocation.SatelliteId = s.NodeID)
    (hexp : ¬rba.PayerAllocation.ExpirationUnixSec * 1000000000 <
      env.nowNanos)
    (hsig : verifySignature env s rba = none) :
    (∀ t, env.createAgreement rba = some t →
      (goContains t "UNIQUE constraint failed" ||
        goContains t "violates unique constraint") = true →
      BandwidthAgreements env s ctx rba =
        .ok (⟨.REJECTED⟩,
          some (.wrap .payer (.wrap .serial (.external t))))) ∧
    (∀ t, env.createAgreement rba = some t →
      (goContains t "UNIQUE constraint failed" ||
        goContains t "violates unique constraint") = false →
      BandwidthAgreements env s ctx rba =
        .ok (⟨.FAIL⟩, some (.wrap .payer (.external t)))) ∧
    (env.createAgreement rba = none →
      BandwidthAgreements env s ctx rba = .ok (⟨.OK⟩, none)) := by
  refine ⟨fun t hca hu => ?_, fun t hca hu => ?_, fun hca => ?_⟩
  · simp only [BandwidthAgreements, hpi]
    rw [if_neg (by simp [hid]), if_neg (by simp [hsat]), if_neg hexp]
    simp only [hsig, hca]
    rw [if_pos hu]
  · simp only [BandwidthAgreements, hpi]
    rw [if_neg (by simp [hid]), if_neg (by simp [hsat]), if_neg hexp]
    simp only [hsig, hca]
    rw [if_neg (by simp [hu])]
  · simp only [BandwidthAgreements, hpi]
    rw [if_neg (by simp [hid]), if_neg (by simp [hsat]), if_neg hexp]
    simp only [hsig, hca]

/-- C7 witness: the three store outcomes evaluated on concrete
environments differing only in the store write result. -/
theorem bandwidthAgreements_store_error_mapping_witness :
    BandwidthAgreements bwEnvUnique serverT ctxT rbaT =
      .ok (⟨.REJECTED⟩,
        some (.wrap .payer (.wrap .serial (.external uniqueText)))) ∧
    BandwidthAgreements bwEnvFail serverT ctxT rbaT =
      .ok (⟨.FAIL⟩, some (.wrap .payer (.external "disk full"))) ∧
    BandwidthAgreements bwEnvOk serverT ctxT rbaT = .ok (⟨.OK⟩, none) :=
  ⟨(bandwidthAgreements_store_error_mapping bwEnvUnique serverT ctxT rbaT piT
      rfl rfl rfl (by decide) rfl).1 uniqueText rfl (by decide),
   (bandwidthAgreements_store_error_mapping bwEnvFail serverT ctxT rbaT piT
      rfl rfl rfl (by decide) rfl).2.1 "disk full" rfl (by decide),
   (bandwidthAgreements_store_error_mapping bwEnvOk serverT ctxT rbaT piT
      rfl rfl rfl (by decide) rfl).2.2 rfl⟩

/-- One-step unfolding of GenerateKey on positive fuel. -/
theorem generateKey_succ (env : GenEnv) (minDifficulty f t : Nat) :
    GenerateKey env minDifficulty (f + 1) t =
      (match env.ctxErr t with
       | some e => some (.error (.wrap .nodeID e), t + 1)
       | none =>
         match env.generatePrivateKey t with
         | .error e => some (.error (.wrap .nodeID e), t + 1)
         | .ok k =>
           match env.nodeIDFromKey k with
           | .error e => some (.error (.wrap .nodeID e), t + 1)
           | .ok id =>
             match env.difficultyOf id with
             | .error e => some (.error (.wrap .nodeID e), t + 1)
             | .ok d =>
               if minDifficulty ≤ d then some (.ok (k, id), t + 1)
               else GenerateKey env minDifficulty f (t + 1)) := rfl

/-- One-step unfolding of GenerateKeys on positive fuel. -/
theorem generateKeys_succ {σ : Type} (env : GenEnv) (minDifficulty : Nat)
    (found : σ → Key → NodeID → σ × Bool × Option GoError)
    (f : Nat) (st : σ) (t : Nat) :
    GenerateKeys env minDifficulty found (f + 1) st t =
      (match GenerateKey env minDifficulty (f + 1) t with
       | none => none
       | some (.error e, _) => some (st, some e)
       | some (.ok (k, id), tNext) =>
         match found st k id with
         | (st2, _, some e) => some (st2, some e)
         | (st2, true, none) => some (st2, none)
         | (st2, false, none) =>
           GenerateKeys env minDifficulty found f st2 tNext) := rfl

/-- One-step unfolding of generatedCandidates on positive fuel. -/
theorem generatedCandidates_succ (env : GenEnv) (minDifficulty f t : Nat) :
    generatedCandidates env minDifficulty (f + 1) t =
      (match GenerateKey env minDifficulty (f + 1) t with
       | some (.ok (k, id), tNext) =>
         (k, id) :: generatedCandidates env minDifficulty f tNext
       | _ => []) := rfl

/-- With the ambient context already cancelled, GenerateKey exits at once
with ErrNodeID wrapping the cancellation error. -/
theorem generateKey_cancelled (env : GenEnv) (minDifficulty f t : Nat)
    (e : GoError) (h : env.ctxErr t = some e) :
    GenerateKey env minDifficulty (f + 1) t =
      some (.error (.wrap .nodeID e), t + 1) := by
  simp only [generateKey_succ, h]

/-- A successful GenerateKey result has a defined difficulty at least the
requested floor. -/
theorem generateKey_ok_difficulty (env : GenEnv) (minDifficulty : Nat) :
    ∀ (f t t2 : Nat) (k : Key) (id : NodeID),
      GenerateKey env minDifficulty f t = some (.ok (k, id), t2) →
      ∃ d, env.difficultyOf id = .ok d ∧ minDifficulty ≤ d := by
  intro f
  induction f with
  | zero => intro t t2 k id h; exact absurd h (by simp [GenerateKey])
  | succ f ih =>
    intro t t2 k id h
    cases hc : env.ctxErr t with
    | some e =>
      simp only [generateKey_succ, hc] at h
      exact absurd h (by simp)
    | none =>
      cases hg : env.generatePrivateKey t with
      | error e =>
        simp only [generateKey_succ, hc, hg] at h
        exact absurd h (by simp)
      | ok k2 =>
        cases hi : env.nodeIDFromKey k2 with
        | error e =>
          simp only [generateKey_succ, hc, hg, hi] at h
          exact absurd h (by simp)
        | ok id2 =>
          cases hd : env.difficultyOf id2 with
          | error e =>
            simp only [generateKey_succ, hc, hg, hi, hd] at h
            exact absurd h (by simp)
          | ok d =>
            by_cases hmin : minDifficulty ≤ d
            · simp only [generateKey_succ, hc, hg, hi, hd, if_pos hmin,
                Option.some.injEq, Prod.mk.injEq, Except.ok.injEq] at h
              obtain ⟨⟨hk, hid⟩, ht⟩ := h
              exact ⟨d, hid ▸ hd, hmin⟩
            · simp only [generateKey_succ, hc, hg, hi, hd, if_neg hmin] at h
              exact ih (t + 1) t2 k id h

/-- With cancellation arriving at step T and total oracles, GenerateKey on
fuel reaching past T always terminates, moves time forward, and any error
it returns is ErrNodeID wrapping the cancellation reason. -/
theorem generateKey_terminates (env : GenEnv) (minDifficulty T : Nat)
    (reason : GoError)
    (hbefore : ∀ t, t < T → env.ctxErr t = none)
    (hafter : ∀ t, T ≤ t → env.ctxErr t = some reason)
    (hrng : ∀ t, ∃ k, env.generatePrivateKey t = .ok k)
    (hid : ∀ k, ∃ i, env.nodeIDFromKey k = .ok i)
    (hdiff : ∀ i, ∃ d, env.difficultyOf i = .ok d) :
    ∀ (f t : Nat), T ≤ t + f →
      ∃ r t2, GenerateKey env minDifficulty (f + 1) t = some (r, t2) ∧
        t < t2 ∧ ∀ e, r = .error e → e = .wrap .nodeID reason := by
  intro f
  induction f with
  | zero =>
    intro t ht
    refine ⟨.error (.wrap .nodeID reason), t + 1,
      generateKey_cancelled env minDifficulty 0 t reason
        (hafter t (by omega)),
      Nat.lt_succ_self t, ?_⟩
    intro e he
    injection he with he2
    exact he2.symm
  | succ f ih =>
    intro t ht
    by_cases hT : T ≤ t
    · refine ⟨.error (.wrap .nodeID reason), t + 1,
        generateKey_cancelled env minDifficulty (f + 1) t reason
          (hafter t hT),
        Nat.lt_succ_self t, ?_⟩
      intro e he
      injection he with he2
      exact he2.symm
    · push_neg at hT
      have hc := hbefore t hT
      obtain ⟨k, hk⟩ := hrng t
      obtain ⟨i, hi⟩ := hid k
      obtain ⟨d, hd⟩ := hdiff i
      by_cases hmin : minDifficulty ≤ d
      · refine ⟨.ok (k, i), t + 1, ?_, Nat.lt_succ_self t, ?_⟩
        · simp only [generateKey_succ, hc, hk, hi, hd, if_pos hmin]
        · intro e he
          exact absurd he (by simp)
      · obtain ⟨r, t2, hgk, hlt, herr⟩ := ih (t + 1) (by omega)
        refine ⟨r, t2, ?_, by omega, herr⟩
        simp only [generateKey_succ, hc, hk, hi, hd, if_neg hmin]
        exact hgk

/-- With cancellation arriving at step T, total oracles and a callback
that never reports done, the sequential generator loop terminates with
ErrNodeID wrapping the cancellation reason. -/
theorem generateKeys_cancelled_aux {σ : Type} (env : GenEnv)
    (minDifficulty : Nat)
    (found : σ → Key → NodeID → σ × Bool × Option GoError)
    (T : Nat) (reason : GoError)
    (hbefore : ∀ t, t < T → env.ctxErr t = none)
    (hafter : ∀ t, T ≤ t → env.ctxErr t = some reason)
    (hrng : ∀ t, ∃ k, env.generatePrivateKey t = .ok k)
    (hid : ∀ k, ∃ i, env.nodeIDFromKey k = .ok i)
    (hdiff : ∀ i, ∃ d, env.difficultyOf i = .ok d)
    (hfound : ∀ st k id, ∃ st2, found st k id = (st2, false, none)) :
    ∀ (f t : Nat) (st : σ), T ≤ t + f →
      ∃ st2, GenerateKeys env minDifficulty found (f + 1) st t =
        some (st2, some (.wrap .nodeID reason)) := by
  intro f
  induction f with
  | zero =>
    intro t st ht
    have h := generateKey_cancelled env minDifficulty 0 t reason
      (hafter t (by omega))
    exact ⟨st, by simp only [generateKeys_succ, h]⟩
  | succ f ih =>
    intro t st ht
    by_cases hT : T ≤ t
    · have h := generateKey_cancelled env minDifficulty (f + 1) t reason
        (hafter t hT)
      exact ⟨st, by simp only [generateKeys_succ, h]⟩
    · push_neg at hT
      obtain ⟨r, t2, hgk, hlt, herr⟩ := generateKey_terminates env
        minDifficulty T reason hbefore hafter hrng hid hdiff (f + 1) t
        (by omega)
      cases r with
      | error e =>
        have he := herr e rfl
        subst he
        exact ⟨st, by simp only [generateKeys_succ, hgk]⟩
      | ok c =>
        obtain ⟨k, id⟩ := c
        obtain ⟨st2, hf⟩ := hfound st k id
        obtain ⟨st3, hrec⟩ := ih t2 st2 (by omega)
        refine ⟨st3, ?_⟩
        rw [generateKeys_succ, hgk]
        simp only [hf]
        exact hrec

/-- C9: in the sequential interleaving model of the concurrent generator,
cancelling the ambient context at step T while no callback ever reports
done makes GenerateKeys terminate with a non-nil error wrapping the
cancellation reason, never with success; and a GenerateKey error or a
callback error immediately aborts the whole operation and is surfaced as
the returned error. -/
theorem generateKeys_cancellation_and_errors :
    (∀ (σ : Type) (env : GenEnv) (minDifficulty : Nat)
        (found : σ → Key → NodeID → σ × Bool × Option GoError)
        (T : Nat) (reason : GoError) (fuel : Nat) (st : σ),
      (∀ t, t < T → env.ctxErr t = none) →
      (∀ t, T ≤ t → env.ctxErr t = some reason) →
      (∀ t, ∃ k, env.generatePrivateKey t = .ok k) →
      (∀ k, ∃ i, env.nodeIDFromKey k = .ok i) →
      (∀ i, ∃ d, env.difficultyOf i = .ok d) →
      (∀ st2 k id, ∃ st3, found st2 k id = (st3, false, none)) →
      T ≤ fuel →
      ∃ st2, GenerateKeys env minDifficulty found (fuel + 1) st 0 =
        some (st2, some (.wrap .nodeID reason))) ∧
    (∀ (σ : Type) (env : GenEnv) (minDifficulty : Nat)
        (found : σ → Key → NodeID → σ × Bool × Option GoError)
        (fuel t : Nat) (st : σ) (e : GoError) (t2 : Nat),
      GenerateKey env minDifficulty (fuel + 1) t = some (.error e, t2) →
      GenerateKeys env minDifficulty found (fuel + 1) st t =
        some (st, some e)) ∧
    (∀ (σ : Type) (env : GenEnv) (minDifficulty : Nat)
        (found : σ → Key → NodeID → σ × Bool × Option GoError)
        (fuel t : Nat) (st : σ) (k : Key) (id : NodeID) (t2 : Nat)
        (st2 : σ) (dn : Bool) (e : GoError),
      GenerateKey env minDifficulty (fuel + 1) t = some (.ok (k, id), t2) →
      found st k id = (st2, dn, some e) →
      GenerateKeys env minDifficulty found (fuel + 1) st t =
        some (st2, some e)) := by
  refine ⟨fun σ env minD found T reason fuel st hb ha hr hi hd hf hfuel => ?_,
    fun σ env minD found fuel t st e t2 hgk => ?_,
    fun σ env minD found fuel t st k id t2 st2 dn e hgk hf => ?_⟩
  · exact generateKeys_cancelled_aux env minD found T reason hb ha hr hi hd
      hf fuel 0 st (by omega)
  · simp only [generateKeys_succ, hgk]
  · simp only [generateKeys_succ, hgk, hf]

/-- C9 witness: cancellation from the start surfaces the wrapped
cancellation reason, a key-generation failure aborts at once, and a
callback error aborts at once, on concrete environments. -/
theorem generateKeys_cancellation_and_errors_witness :
    (∃ st2, GenerateKeys genEnvCancel 0
        (fun (st : Unit) _ _ => (st, false, none)) 1 () 0 =
      some (st2, some (.wrap .nodeID (.external "context canceled")))) ∧
    GenerateKeys genEnvRng 8
        (fun (st : Unit) _ _ => (st, false, none)) 1 () 0 =
      some ((), some (.wrap .nodeID (.external "rng failure"))) ∧
    GenerateKeys genEnvT 8
        (fun (st : Unit) _ _ => (st, false, some (.external "callback failure")))
        1 () 0 =
      some ((), some (.external "callback failure")) :=
  ⟨generateKeys_cancellation_and_errors.1 Unit genEnvCancel 0
      (fun st _ _ => (st, false, none)) 0 (.external "context canceled") 0 ()
      (fun t ht => absurd ht (Nat.not_lt_zero t)) (fun _ _ => rfl)
      (fun t => ⟨⟨t⟩, rfl⟩) (fun _ => ⟨nid0, rfl⟩) (fun _ => ⟨0, rfl⟩)
      (fun st _ _ => ⟨st, rfl⟩) (Nat.le_refl 0),
   generateKeys_cancellation_and_errors.2.1 Unit genEnvRng 8
      (fun st _ _ => (st, false, none)) 0 0 ()
      (.wrap .nodeID (.external "rng failure")) 1 rfl,
   generateKeys_cancellation_and_errors.2.2 Unit genEnvT 8
      (fun st _ _ => (st, false, some (.external "callback failure")))
      0 0 () ⟨0⟩ nid0 1 () false (.external "callback failure") rfl rfl⟩

/-- Every candidate the worker stream produces has a defined difficulty at
least the engine floor. -/
theorem generatedCandidates_difficulty (env : GenEnv) (minDifficulty : Nat) :
    ∀ (f t : Nat) (c : Key × NodeID),
      c ∈ generatedCandidates env minDifficulty f t →
      ∃ d, env.difficultyOf c.2 = .ok d ∧ minDifficulty ≤ d := by
  intro f
  induction f with
  | zero =>
    intro t c hc
    exact absurd hc (by simp [generatedCandidates])
  | succ f ih =>
    intro t c hc
    rw [generatedCandidates_succ] at hc
    cases hg : GenerateKey env minDifficulty (f + 1) t with
    | none =>
      rw [hg] at hc
      exact absurd hc (List.not_mem_nil c)
    | some rt =>
      obtain ⟨r, tN⟩ := rt
      cases r with
      | error e =>
        rw [hg] at hc
        exact absurd hc (List.not_mem_nil c)
      | ok kid =>
        obtain ⟨k, id⟩ := kid
        rw [hg] at hc
        rcases List.mem_cons.mp hc with hceq | hmem
        · subst hceq
          exact generateKey_ok_difficulty env minDifficulty (f + 1) t tN
            k id hg
        · exact ih tN c hmem

/-- Running the generator with the NewCA callback from an empty selected
slot, a successful run installs exactly the first generated candidate
whose difficulty meets the configured floor. -/
theorem newCA_selection (env : GenEnv) (minDifficulty cfgD : Nat) :
    ∀ (f t : Nat) (st st2 : CAState), st.selected = none →
      GenerateKeys env minDifficulty (newCAFound cfgD env.difficultyOf)
        f st t = some (st2, none) →
      ∃ k id, st2.selected = some (k, id) ∧
        (generatedCandidates env minDifficulty f t).find?
          (qualifies env.difficultyOf cfgD) = some (k, id) := by
  intro f
  induction f with
  | zero =>
    intro t st st2 hsel h
    exact absurd h (by simp [GenerateKeys])
  | succ f ih =>
    intro t st st2 hsel h
    rw [generateKeys_succ] at h
    rw [generatedCandidates_succ]
    cases hg : GenerateKey env minDifficulty (f + 1) t with
    | none =>
      rw [hg] at h
      exact absurd h (by simp)
    | some rt =>
      obtain ⟨r, tN⟩ := rt
      cases r with
      | error e =>
        rw [hg] at h
        exact absurd h (by simp)
      | ok kid =>
        obtain ⟨k, id⟩ := kid
        rw [hg] at h
        cases hd : env.difficultyOf id with
        | error e =>
          simp only [newCAFound, hd] at h
          exact absurd h (by simp)
        | ok d =>
          by_cases hq : cfgD ≤ d
          · simp only [newCAFound, hd, if_pos hq, hsel,
              Option.some.injEq, Prod.mk.injEq] at h
            obtain ⟨hst, -⟩ := h
            refine ⟨k, id, ?_, ?_⟩
            · rw [← hst]
            · exact List.find?_cons_of_pos _ (by simp [qualifies, hd, hq])
          · simp only [newCAFound, hd, if_neg hq] at h
            obtain ⟨k2, id2, hres, hfind⟩ :=
              ih tN { st with highscore := max st.highscore d } st2 hsel h
            refine ⟨k2, id2, hres, ?_⟩
            rw [List.find?_cons_of_neg _ (by simp [qualifies, hd, hq])]
            exact hfind

/-- C4: every successful NewCA returns a certificate authority whose key
and ID are the first generated candidate whose difficulty meets the
configured floor, and that difficulty is at least the configured
Difficulty option and at least the engine filter
minimumLoggableDifficulty, which is eight. -/
theorem newCA_first_qualifying_candidate (env : GenEnv)
    (makeCert : Key → Except GoError Certificate) (opts : NewCAOptions)
    (parentCert : Option Certificate) (fuel : Nat)
    (ca : FullCertificateAuthority)
    (h : NewCA env makeCert opts parentCert fuel = some (.ok ca)) :
    ∃ d, env.difficultyOf ca.ID = .ok d ∧ opts.Difficulty ≤ d ∧
      minimumLoggableDifficulty ≤ d ∧ 8 ≤ d ∧
      (generatedCandidates env minimumLoggableDifficulty fuel 0).find?
        (qualifies env.difficultyOf opts.Difficulty) =
        some (ca.Key, ca.ID) := by
  unfold NewCA at h
  cases hg : GenerateKeys env minimumLoggableDifficulty
      (newCAFound opts.Difficulty env.difficultyOf) fuel ⟨0, none⟩ 0 with
  | none =>
    simp [hg] at h
  | some pr =>
    obtain ⟨st, oe⟩ := pr
    cases oe with
    | some e =>
      simp [hg] at h
    | none =>
      simp only [hg] at h
      cases hs : st.selected with
      | none => simp [hs] at h
      | some kid =>
        obtain ⟨k, id⟩ := kid
        simp only [hs] at h
        cases hm : makeCert k with
        | error e => simp [hm] at h
        | ok c =>
          simp only [hm, Option.some.injEq, Except.ok.injEq] at h
          obtain ⟨k2, id2, hsel2, hfind⟩ := newCA_selection env
            minimumLoggableDifficulty opts.Difficulty fuel 0
            ⟨0, none⟩ st rfl hg
          rw [hs] at hsel2
          injection hsel2 with hkid
          injection hkid with hk2 hid2
          subst hk2
          subst hid2
          subst h
          have hqual := List.find?_some hfind
          have hmem := List.mem_of_find?_eq_some hfind
          obtain ⟨d2, hd2, h8⟩ := generatedCandidates_difficulty env
            minimumLoggableDifficulty fuel 0 (k, id) hmem
          simp only [qualifies, hd2] at hqual
          refine ⟨d2, hd2, of_decide_eq_true hqual, h8, h8, hfind⟩

/-- C4 witness: on a concrete environment whose first candidate has
difficulty thirty, NewCA with floor thirty returns that candidate and the
concluded difficulty facts hold. -/
theorem newCA_first_qualifying_candidate_witness :
    ∃ d, genEnvT.difficultyOf caT.ID = .ok d ∧ 30 ≤ d ∧
      minimumLoggableDifficulty ≤ d ∧ 8 ≤ d ∧
      (generatedCandidates genEnvT minimumLoggableDifficulty 1 0).find?
        (qualifies genEnvT.difficultyOf 30) = some (caT.Key, caT.ID) :=
  newCA_first_qualifying_candidate genEnvT makeCertT ⟨30⟩ none 1 caT rfl

end Storj
